import Mathlib

/-!
Verification of the resumable Imgur batch uploader
(`upload_to_imgur_improved.py`).

The script is embedded shallowly:

* paths and report text are Lean `String`s, but every string operation the
  script uses (`glob` matching, `str.upper()`, `os.path.dirname`,
  `os.path.basename`, Python `sorted`) is re-implemented structurally over
  the underlying character lists so that all definitions evaluate by kernel
  reduction;
* an image file is a record of its raw bytes, pixel dimensions, and a flag
  saying whether the imaging library raises on it (the script's
  `except Exception` fallback path);
* the network is a function from the attempt number to the outcome of that
  attempt (HTTP 200 with a success flag, HTTP 429, another HTTP status,
  connection error, timeout, or an unexpected exception);
* the JPEG encoder is an abstract function `enc` from the resized
  dimensions and source bytes to the re-encoded bytes, so that statements
  about the compressed output hold for every encoder;
* the recursive retry of `upload_image_to_imgur` is run on the explicit
  fuel `MAX_RETRIES - retry_count`, which is exactly the measure by which
  the Python recursion terminates;
* the main upload loop is explicit state passing: the record list, the list
  of progress-file snapshots written so far, and whether the final report
  was produced; a `KeyboardInterrupt` is modelled by the index of the
  iteration at which it is delivered.
-/

namespace ImgurUpload

/-! ## Constants from the script -/

/-- Maximum number of retries per image (`MAX_RETRIES = 3`). -/
def MAX_RETRIES : Nat := 3

/-- Compression threshold on the byte size (`MAX_FILE_SIZE = 10 * 1024 * 1024`). -/
def MAX_FILE_SIZE : Nat := 10 * 1024 * 1024

/-- Maximum width or height for images (`MAX_DIMENSION = 2048`). -/
def MAX_DIMENSION : Nat := 2048

/-- JPEG quality used on re-encode (`COMPRESSION_QUALITY = 85`). -/
def COMPRESSION_QUALITY : Nat := 85

/-- Imgur's actual upload limit checked after compression
(`20 * 1024 * 1024` in `upload_image_to_imgur`). -/
def IMGUR_SIZE_LIMIT : Nat := 20 * 1024 * 1024

/-! ## String helpers

Structural re-implementations of the Python string operations used by the
script, over `String.data`, so they compute by kernel reduction. -/

/-- Lexicographic comparison of strings by code points, the order Python's
`sorted` uses on `str`. -/
def strLe (a b : String) : Bool := decide (a.data ≤ b.data)

/-- Uppercase every character (`str.upper()` for the ASCII pattern text the
script applies it to). -/
def toUpperStr (s : String) : String := ⟨s.data.map Char.toUpper⟩

/-- Lowercase every character (`str.lower()`); used only to state the
spec's case-insensitive matching claim. -/
def toLowerStr (s : String) : String := ⟨s.data.map Char.toLower⟩

/-- Split a character list at every occurrence of `sep`, keeping empty
groups, as Python's `str.split(sep)` does. -/
def splitChar (sep : Char) : List Char → List (List Char)
  | [] => [[]]
  | c :: cs =>
    if c = sep then [] :: splitChar sep cs
    else
      match splitChar sep cs with
      | [] => [[c]]
      | g :: gs => (c :: g) :: gs

/-- Path components of a path string, split at every slash. -/
def pathParts (p : String) : List String := (splitChar '/' p.data).map String.mk

/-- Last path component, `os.path.basename` for the slash-separated paths
the script builds. -/
def basename (p : String) : String := (pathParts p).getLastD ""

/-- Characters up to and including the last slash (`p[:p.rfind('/')+1]`). -/
def headToLastSlash (p : String) : List Char :=
  (p.data.reverse.dropWhile (fun c => !(c = '/'))).reverse

/-- Directory part of a path, `os.path.dirname`: everything before the last
slash, with trailing slashes stripped unless the head is all slashes. -/
def dirname (p : String) : String :=
  let head := headToLastSlash p
  if head.all (fun c => c = '/') then ⟨head⟩
  else ⟨(head.reverse.dropWhile (fun c => c = '/')).reverse⟩

/-- Concatenation of a list of strings. -/
def concatStr (l : List String) : String := l.foldl (fun a b => a ++ b) ""

/-- Python `os.path.relpath(p, root)` for the case the script exercises: the
paths it passes are produced by globbing under `root`, so they extend
`root ++ "/"`; other inputs are returned unchanged. -/
def relpath (root p : String) : String :=
  if (root ++ "/").data.isPrefixOf p.data then ⟨p.data.drop (root.data.length + 1)⟩
  else p

/-! ## Stable insertion sort

A structural model of Python's `sorted` (a stable sort by a total
preorder); used because the script sorts paths, directory keys and
filenames. -/

/-- Insert `a` before the first element `b` with `le a b`; equal keys keep
the original relative order, as in Python's stable `sorted`. -/
def insertBy (le : α → α → Bool) (a : α) : List α → List α
  | [] => [a]
  | b :: l => if le a b then a :: b :: l else b :: insertBy le a l

/-- Stable insertion sort by a boolean comparison. -/
def sortBy (le : α → α → Bool) : List α → List α
  | [] => []
  | a :: l => insertBy le a (sortBy le l)

theorem insertBy_perm (le : α → α → Bool) (a : α) :
    ∀ l : List α, (insertBy le a l).Perm (a :: l)
  | [] => List.Perm.refl _
  | b :: l => by
    unfold insertBy
    by_cases h : le a b = true
    · simp [h]
    · simp only [h, if_neg]
      exact ((insertBy_perm le a l).cons b).trans (List.Perm.swap a b l)

theorem sortBy_perm (le : α → α → Bool) :
    ∀ l : List α, (sortBy le l).Perm l
  | [] => List.Perm.refl _
  | a :: l => (insertBy_perm le a (sortBy le l)).trans ((sortBy_perm le l).cons a)

theorem mem_sortBy {le : α → α → Bool} {l : List α} {x : α} :
    x ∈ sortBy le l ↔ x ∈ l :=
  (sortBy_perm le l).mem_iff

theorem nodup_sortBy {le : α → α → Bool} {l : List α} (h : l.Nodup) :
    (sortBy le l).Nodup :=
  (sortBy_perm le l).symm.nodup h

theorem pairwise_insertBy {le : α → α → Bool}
    (htrans : ∀ a b c, le a b = true → le b c = true → le a c = true)
    (htot : ∀ a b, (le a b || le b a) = true) (a : α) :
    ∀ {l : List α}, l.Pairwise (fun x y => le x y = true) →
      (insertBy le a l).Pairwise (fun x y => le x y = true)
  | [], _ => by simp [insertBy]
  | b :: l, h => by
    unfold insertBy
    rcases List.pairwise_cons.mp h with ⟨hb, hl⟩
    by_cases hab : le a b = true
    · simp only [hab, if_pos]
      refine List.pairwise_cons.mpr ⟨?_, h⟩
      intro x hx
      rcases List.mem_cons.mp hx with rfl | hx
      · exact hab
      · exact htrans a b x hab (hb x hx)
    · simp only [hab, if_neg]
      refine List.pairwise_cons.mpr ⟨?_, pairwise_insertBy htrans htot a hl⟩
      intro x hx
      rcases List.mem_cons.mp ((insertBy_perm le a l).mem_iff.mp hx) with hxa | hx
      · subst hxa
        rcases Bool.or_eq_true_iff.mp (htot x b) with h1 | h1
        · exact absurd h1 hab
        · exact h1
      · exact hb x hx

theorem pairwise_sortBy {le : α → α → Bool}
    (htrans : ∀ a b c, le a b = true → le b c = true → le a c = true)
    (htot : ∀ a b, (le a b || le b a) = true) :
    ∀ l : List α, (sortBy le l).Pairwise (fun x y => le x y = true)
  | [] => by simp [sortBy]
  | a :: l => pairwise_insertBy htrans htot a (pairwise_sortBy htrans htot l)

theorem strLe_total (a b : String) : (strLe a b || strLe b a) = true := by
  unfold strLe
  rcases le_total a.data b.data with h | h <;> simp [h]

theorem strLe_trans (a b c : String) (h1 : strLe a b = true) (h2 : strLe b c = true) :
    strLe a c = true := by
  unfold strLe at *
  exact decide_eq_true (le_trans (of_decide_eq_true h1) (of_decide_eq_true h2))

/-! ## File discovery (`get_all_image_files`)

The filesystem is the list of file paths on disk. The script matches them
with `glob.glob(os.path.join(root_path, '**', pattern), recursive=True)`:
a path is returned exactly when it lies under `root_path`, every path
component below the root is non-hidden (`glob`'s `*` and `**` never match
a name with a leading period and never descend into hidden directories),
and the last component ends with the pattern's text after the leading `*`
(with the exact case written in the pattern: `glob.glob` is
case-sensitive on the script's target filesystem). -/

/-- Extension patterns of `get_all_image_files`
(`image_extensions = ['*.jpg', ..., '*.svg']`). -/
def image_extensions : List String :=
  ["*.jpg", "*.jpeg", "*.png", "*.gif", "*.bmp", "*.tiff", "*.svg"]

/-- Whether a path component has a leading period, which `glob`'s
wildcards never match. -/
def isHiddenComponent (s : String) : Bool :=
  match s.data with
  | c :: _ => c = '.'
  | [] => false

/-- Path components of `p` below the root (the part matched by
`'**/' + pattern`). -/
def relParts (root p : String) : List String :=
  (splitChar '/' (p.data.drop (root.data.length + 1))).map String.mk

/-- Whether `glob.glob(root + '/**/' + pattern, recursive=True)` matches a
path: the path extends `root ++ "/"`, `'**'` and `'*'` match only
non-hidden components, and the last component ends with the pattern's
text after the leading `*`. -/
def globMatches (root pattern p : String) : Bool :=
  (root ++ "/").data.isPrefixOf p.data &&
    (relParts root p).all (fun comp => !isHiddenComponent comp) &&
    (pattern.data.drop 1).isSuffixOf ((relParts root p).getLastD "").data

/-- One iteration of the discovery loop: extend the accumulator with the
matches of the lowercase pattern, then of the uppercased pattern
(`extension.upper()`). -/
def extendMatches (root : String) (files : List String) (acc : List String)
    (ext : String) : List String :=
  (acc ++ files.filter (fun p => globMatches root ext p)) ++
    files.filter (fun p => globMatches root (toUpperStr ext) p)

/-- The embedding of `get_all_image_files`: collect the matches of every
lowercase and uppercase pattern under the root, then
`sorted(list(set(...)))`. -/
def get_all_image_files (root : String) (files : List String) : List String :=
  sortBy strLe (image_extensions.foldl (extendMatches root files) []).dedup

/-! ## Image compression (`compress_image_if_needed`) -/

/-- An image file on disk: its raw bytes, its pixel dimensions as the
imaging library reports them, and whether opening or processing it with the
imaging library raises an exception (the `except Exception` fallback in
`compress_image_if_needed`). -/
structure ImageFile where
  content : List Nat
  width : Nat
  height : Nat
  pilError : Bool
deriving DecidableEq

/-- Dimensions after the resize step: when the larger dimension exceeds
`MAX_DIMENSION` the image is scaled by `MAX_DIMENSION / max_dim`
(`int(width * ratio)` modelled by exact natural floor division), otherwise
the dimensions are kept. -/
def compressTargetDims (f : ImageFile) : Nat × Nat :=
  let maxDim := max f.width f.height
  if MAX_DIMENSION < maxDim then
    (f.width * MAX_DIMENSION / maxDim, f.height * MAX_DIMENSION / maxDim)
  else (f.width, f.height)

/-- The embedding of `compress_image_if_needed`, parametrised by the JPEG
encoder `enc` (dimensions and source bytes to re-encoded bytes). Returns
the byte payload and its length, matching the `(data, size)` pair the
script returns: the original bytes when no compression is needed or when
the imaging library raises (the fallback `open(...).read()`), and the
re-encoded bytes with their re-measured length otherwise. -/
def compress_image_if_needed (enc : Nat → Nat → List Nat → List Nat)
    (f : ImageFile) : List Nat × Nat :=
  if f.pilError then (f.content, f.content.length)
  else
    let file_size := f.content.length
    let maxDim := max f.width f.height
    if MAX_FILE_SIZE < file_size || MAX_DIMENSION < maxDim then
      let dims := compressTargetDims f
      let compressed_data := enc dims.1 dims.2 f.content
      (compressed_data, compressed_data.length)
    else (f.content, f.content.length)

/-! ## Upload with retries (`upload_image_to_imgur`) -/

/-- Outcome of one POST attempt, as the script classifies it: an HTTP 200
response carrying the API success flag and a link, an HTTP 429, any other
HTTP status, a `requests` connection error, a `requests` timeout, or any
other exception raised during the attempt. -/
inductive AttemptOutcome where
  | httpOk (succ : Bool) (link : String)
  | rateLimited
  | httpError (status : Nat)
  | connError
  | timeoutError
  | otherError
deriving DecidableEq

/-- The outcomes the claims call retryable: rate limit, non-200/429 HTTP
status, connection error, timeout. -/
def retryableOutcome : AttemptOutcome → Bool
  | .rateLimited => true
  | .httpError _ => true
  | .connError => true
  | .timeoutError => true
  | _ => false

/-- Body of `upload_image_to_imgur`, run on the explicit fuel
`k = MAX_RETRIES - retry_count`: the function's `retry_count >= MAX_RETRIES`
guard is exactly `k = 0`, and every recursive call passes
`retry_count + 1`, i.e. decrements `k`. `att r` is the network's answer to
the attempt made with `retry_count = r`. -/
def uploadAux (att : Nat → AttemptOutcome) (enc : Nat → Nat → List Nat → List Nat)
    (f : ImageFile) : Nat → Nat → Option String
  | _, 0 => none
  | retry_count, k + 1 =>
    if IMGUR_SIZE_LIMIT < (compress_image_if_needed enc f).2 then none
    else
      match att retry_count with
      | .httpOk true link => some link
      | .httpOk false _ => none
      | .rateLimited => uploadAux att enc f (retry_count + 1) k
      | .httpError _ =>
        if retry_count < MAX_RETRIES - 1 then uploadAux att enc f (retry_count + 1) k
        else none
      | .connError =>
        if retry_count < MAX_RETRIES - 1 then uploadAux att enc f (retry_count + 1) k
        else none
      | .timeoutError =>
        if retry_count < MAX_RETRIES - 1 then uploadAux att enc f (retry_count + 1) k
        else none
      | .otherError => none

/-- The embedding of `upload_image_to_imgur`: the recursion of the script,
whose depth is measured by `MAX_RETRIES - retry_count`. -/
def upload_image_to_imgur (att : Nat → AttemptOutcome)
    (enc : Nat → Nat → List Nat → List Nat) (f : ImageFile)
    (retry_count : Nat) : Option String :=
  uploadAux att enc f retry_count (MAX_RETRIES - retry_count)

/-- Number of POST attempts issued by `uploadAux`: one per executed
`session.post`, i.e. one per invocation that passes the retry guard and the
size check, plus the attempts of the recursive call when the script
retries. -/
def uploadAttemptsAux (att : Nat → AttemptOutcome)
    (enc : Nat → Nat → List Nat → List Nat) (f : ImageFile) : Nat → Nat → Nat
  | _, 0 => 0
  | retry_count, k + 1 =>
    if IMGUR_SIZE_LIMIT < (compress_image_if_needed enc f).2 then 0
    else
      match att retry_count with
      | .httpOk _ _ => 1
      | .rateLimited => 1 + uploadAttemptsAux att enc f (retry_count + 1) k
      | .httpError _ =>
        1 + if retry_count < MAX_RETRIES - 1 then
          uploadAttemptsAux att enc f (retry_count + 1) k else 0
      | .connError =>
        1 + if retry_count < MAX_RETRIES - 1 then
          uploadAttemptsAux att enc f (retry_count + 1) k else 0
      | .timeoutError =>
        1 + if retry_count < MAX_RETRIES - 1 then
          uploadAttemptsAux att enc f (retry_count + 1) k else 0
      | .otherError => 1

/-- Total number of POST attempts of `upload_image_to_imgur` started at a
given `retry_count`. -/
def uploadAttempts (att : Nat → AttemptOutcome)
    (enc : Nat → Nat → List Nat → List Nat) (f : ImageFile)
    (retry_count : Nat) : Nat :=
  uploadAttemptsAux att enc f retry_count (MAX_RETRIES - retry_count)

/-! ## Upload records and the resume filter -/

/-- One entry of `upload_results`, the dict the main loop appends per file:
`{'original_path': relative_path, 'absolute_path': image_path,
'filename': filename, 'imgur_url': imgur_url}`. -/
structure UploadRecord where
  original_path : String
  absolute_path : String
  filename : String
  imgur_url : Option String
deriving DecidableEq

/-- The set of already processed files computed in `main`:
`{result['absolute_path'] for result in upload_results}`. -/
def processed_files (upload_results : List UploadRecord) : List String :=
  upload_results.map (fun r => r.absolute_path)

/-- The resume filter of `main`:
`[f for f in image_files if f not in processed_files]`. -/
def remaining_files (image_files : List String)
    (upload_results : List UploadRecord) : List String :=
  image_files.filter (fun f => !(processed_files upload_results).contains f)

/-! ## The main upload loop -/

/-- The record `main` appends for one processed path: the path relative to
the workspace root, the absolute path, the basename, and the result of
`upload_image_to_imgur` for that path (abstracted as `u`). -/
def mkRecord (root : String) (u : String → Option String) (p : String) :
    UploadRecord :=
  { original_path := relpath root p
    absolute_path := p
    filename := basename p
    imgur_url := u p }

/-- Observable outcome of a run of `main`'s upload loop: the final
in-memory record list, the successive progress-file snapshots written by
`save_progress` (each overwrites the previous one on disk), and whether the
run reached the final report/JSON generation (it does not after a
`KeyboardInterrupt`). -/
structure RunOutcome where
  records : List UploadRecord
  saves : List (List UploadRecord)
  reportWritten : Bool
deriving DecidableEq

/-- The `for i, image_path in enumerate(remaining_files)` loop of `main`:
per file, append the record, and after every 10 files of the current run
save the full record list. `intAt = some j` delivers the
`KeyboardInterrupt` when iteration `j` (0-based over the current run's
remaining files) is about to execute; the handler saves progress once more
and returns before generating the report. -/
def uploadLoop (root : String) (u : String → Option String)
    (intAt : Option Nat) :
    Nat → List UploadRecord → List (List UploadRecord) → List String →
      RunOutcome
  | _, results, saves, [] => ⟨results, saves, true⟩
  | i, results, saves, p :: rest =>
    if intAt = some i then ⟨results, saves ++ [results], false⟩
    else
      let results := results ++ [mkRecord root u p]
      let saves := if (i + 1) % 10 = 0 then saves ++ [results] else saves
      uploadLoop root u intAt (i + 1) results saves rest

/-- The portion of `main` from loading the progress file on: filter the
discovered files against the loaded records and run the upload loop over
the remaining ones, starting from the loaded record list. -/
def runMain (root : String) (u : String → Option String) (intAt : Option Nat)
    (loaded : List UploadRecord) (image_files : List String) : RunOutcome :=
  uploadLoop root u intAt 0 loaded [] (remaining_files image_files loaded)

/-- The embedding of `main` including discovery: when no image files are
found the run prints and returns immediately (`none`); otherwise it
resumes from the loaded records and runs the loop. -/
def main_run (root : String) (u : String → Option String)
    (intAt : Option Nat) (loaded : List UploadRecord) (files : List String) :
    Option RunOutcome :=
  let image_files := get_all_image_files root files
  if image_files = [] then none
  else some (runMain root u intAt loaded image_files)

/-! ## Report generation (`generate_markdown_file`) -/

/-- Records with a null URL, in input order (`failed_uploads`). -/
def failedRecords (upload_results : List UploadRecord) : List UploadRecord :=
  upload_results.filter (fun r => r.imgur_url.isNone)

/-- Count of successfully uploaded records. -/
def successCount (upload_results : List UploadRecord) : Nat :=
  (upload_results.filter (fun r => r.imgur_url.isSome)).length

/-- Directory key under which `generate_markdown_file` groups a record:
`os.path.dirname(result['original_path'])`. -/
def recordDir (r : UploadRecord) : String := dirname r.original_path

/-- Section keys of the report: the distinct directory keys, iterated in
sorted order (`sorted(results_by_dir.keys())`). -/
def sectionKeys (upload_results : List UploadRecord) : List String :=
  sortBy strLe ((upload_results.map recordDir).dedup)

/-- Entries of one section: the records of that directory, sorted by
filename with Python's stable `sorted(..., key=lambda x: x['filename'])`. -/
def entriesFor (d : String) (upload_results : List UploadRecord) :
    List UploadRecord :=
  sortBy (fun a b => strLe a.filename b.filename)
    (upload_results.filter (fun r => recordDir r == d))

/-- Markdown block for one record, exactly as the script formats it. -/
def entryMd (r : UploadRecord) : String :=
  match r.imgur_url with
  | some url =>
    "- **" ++ r.filename ++ "**\n" ++
      "  - Original Path: `" ++ r.original_path ++ "`\n" ++
      "  - Imgur URL: " ++ url ++ "\n" ++
      "  - ![" ++ r.filename ++ "](" ++ url ++ ")\n\n"
  | none =>
    "- **" ++ r.filename ++ "** ❌ FAILED TO UPLOAD\n" ++
      "  - Original Path: `" ++ r.original_path ++ "`\n\n"

/-- Markdown block for one directory section. -/
def sectionMd (upload_results : List UploadRecord) (d : String) : String :=
  (if d = "" then "\n### Root Directory\n\n" else "\n### " ++ d ++ "\n\n") ++
    concatStr ((entriesFor d upload_results).map entryMd)

/-- The full markdown document `generate_markdown_file` writes, as a
function of the timestamp string interpolated by
`datetime.now().strftime(...)` and of the record list. -/
def generate_markdown_content (now : String)
    (upload_results : List UploadRecord) : String :=
  "# Image Upload Results\n\nGenerated on: " ++ now ++
    "\n\nTotal images processed: " ++ toString upload_results.length ++
    "\nSuccessfully uploaded: " ++ toString (successCount upload_results) ++
    "\nFailed uploads: " ++ toString (failedRecords upload_results).length ++
    "\n\n---\n\n## All Images\n\n" ++
    concatStr ((sectionKeys upload_results).map
      (fun d => sectionMd upload_results d)) ++
    (if failedRecords upload_results = [] then ""
     else
       "\n---\n\n## Failed Uploads\n\n" ++
         concatStr ((failedRecords upload_results).map
           (fun r => "- `" ++ r.original_path ++ "`\n")))

/-! ## Characterization of the upload loop -/

/-- Uninterrupted run of the loop: every remaining file gets exactly one
appended record, the progress file is saved exactly after the iterations
`j` with `(j + 1) % 10 = 0`, each snapshot holding the full record list up
to that point, and control reaches the final report generation. -/
theorem uploadLoop_none_eq (root : String) (u : String → Option String) :
    ∀ (rem : List String) (i : Nat) (results : List UploadRecord)
      (saves : List (List UploadRecord)),
      uploadLoop root u none i results saves rem =
        ⟨results ++ rem.map (mkRecord root u),
         saves ++ ((List.range rem.length).filter
             (fun j => (i + j + 1) % 10 = 0)).map
           (fun j => results ++ ((rem.take (j + 1)).map (mkRecord root u))),
         true⟩
  | [], i, results, saves => by simp [uploadLoop]
  | p :: rest, i, results, saves => by
    rw [show uploadLoop root u none i results saves (p :: rest) =
        uploadLoop root u none (i + 1) (results ++ [mkRecord root u p])
          (if (i + 1) % 10 = 0 then saves ++ [results ++ [mkRecord root u p]]
           else saves) rest from rfl]
    rw [uploadLoop_none_eq root u rest (i + 1) (results ++ [mkRecord root u p]) _]
    rw [List.length_cons, List.range_succ_eq_map, List.filter_cons]
    congr 1
    · simp
    · have hfil :
          List.filter ((fun j => decide ((i + j + 1) % 10 = 0)) ∘ Nat.succ)
            (List.range rest.length)
          = List.filter (fun j => decide ((i + 1 + j + 1) % 10 = 0))
            (List.range rest.length) :=
        List.filter_congr (fun j _ => by
          simp only [Function.comp_apply]
          exact decide_eq_decide.mpr (by omega))
      simp only [Nat.add_zero, List.filter_map, List.map_map]
      rw [hfil]
      by_cases h10 : (i + 1) % 10 = 0 <;>
        simp [h10, List.map_map, List.take_succ_cons, List.append_assoc,
          Function.comp]

/-- Interrupted run of the loop: when the `KeyboardInterrupt` arrives at
iteration `i + k` (so after `k` files of this recursion were processed),
the loop stops with the records of the first `k` files appended, one final
progress snapshot of the full record list written after the periodic ones,
and the final report not produced. -/
theorem uploadLoop_interrupt_eq (root : String) (u : String → Option String) :
    ∀ (rem : List String) (k i : Nat) (results : List UploadRecord)
      (saves : List (List UploadRecord)), k < rem.length →
      uploadLoop root u (some (i + k)) i results saves rem =
        ⟨results ++ (rem.take k).map (mkRecord root u),
         (saves ++ ((List.range k).filter (fun j => (i + j + 1) % 10 = 0)).map
             (fun j => results ++ ((rem.take (j + 1)).map (mkRecord root u))))
           ++ [results ++ (rem.take k).map (mkRecord root u)],
         false⟩
  | [], k, i, results, saves, h => absurd h (by simp)
  | p :: rest, 0, i, results, saves, h => by
    simp [uploadLoop]
  | p :: rest, k + 1, i, results, saves, h => by
    rw [show uploadLoop root u (some (i + (k + 1))) i results saves (p :: rest) =
        if some (i + (k + 1)) = some i then
          (⟨results, saves ++ [results], false⟩ : RunOutcome)
        else
          uploadLoop root u (some (i + (k + 1))) (i + 1)
            (results ++ [mkRecord root u p])
            (if (i + 1) % 10 = 0 then saves ++ [results ++ [mkRecord root u p]]
             else saves) rest from rfl]
    rw [if_neg (by simp)]
    rw [show i + (k + 1) = (i + 1) + k by omega]
    rw [uploadLoop_interrupt_eq root u rest k (i + 1)
      (results ++ [mkRecord root u p]) _ (by simpa using Nat.lt_of_succ_lt_succ h)]
    have hfil :
        List.filter ((fun j => decide ((i + j + 1) % 10 = 0)) ∘ Nat.succ)
          (List.range k)
        = List.filter (fun j => decide ((i + 1 + j + 1) % 10 = 0))
          (List.range k) :=
      List.filter_congr (fun j _ => by
        simp only [Function.comp_apply]
        exact decide_eq_decide.mpr (by omega))
    rw [List.range_succ_eq_map, List.filter_cons]
    congr 1
    · simp [List.take_succ_cons, List.append_assoc]
    · simp only [Nat.add_zero, List.filter_map, List.map_map]
      rw [hfil]
      by_cases h10 : (i + 1) % 10 = 0 <;>
        simp [h10, List.map_map, List.take_succ_cons, List.append_assoc,
          Function.comp]

/-! ## Discovery and resume lemmas -/

theorem mem_remaining_files {F : List String} {rs : List UploadRecord} {p : String} :
    p ∈ remaining_files F rs ↔ p ∈ F ∧ p ∉ processed_files rs := by
  simp [remaining_files, List.mem_filter]

theorem mem_foldl_extendMatches (root : String) (files : List String) :
    ∀ (exts : List String) (acc : List String) (p : String),
      p ∈ exts.foldl (extendMatches root files) acc ↔
        p ∈ acc ∨ (p ∈ files ∧ ∃ e ∈ exts,
          (globMatches root e p || globMatches root (toUpperStr e) p) = true)
  | [], acc, p => by simp
  | e :: exts, acc, p => by
    rw [List.foldl_cons, mem_foldl_extendMatches root files exts _ p]
    simp only [extendMatches, List.mem_append, List.mem_filter,
      List.mem_cons, Bool.or_eq_true]
    constructor
    · rintro (((h | h) | h) | h)
      · exact Or.inl h
      · exact Or.inr ⟨h.1, e, Or.inl rfl, Or.inl h.2⟩
      · exact Or.inr ⟨h.1, e, Or.inl rfl, Or.inr h.2⟩
      · rcases h with ⟨hp, e', he', hm⟩
        exact Or.inr ⟨hp, e', Or.inr he', hm⟩
    · rintro (h | ⟨hp, e', (rfl | he'), hm⟩)
      · exact Or.inl (Or.inl (Or.inl h))
      · rcases hm with hm | hm
        · exact Or.inl (Or.inl (Or.inr ⟨hp, hm⟩))
        · exact Or.inl (Or.inr ⟨hp, hm⟩)
      · exact Or.inr ⟨hp, e', he', hm⟩

theorem mem_get_all_image_files {root : String} {files : List String}
    {p : String} :
    p ∈ get_all_image_files root files ↔
      p ∈ files ∧ (image_extensions.any
        (fun e => globMatches root e p ||
          globMatches root (toUpperStr e) p)) = true := by
  unfold get_all_image_files
  rw [mem_sortBy, List.mem_dedup, mem_foldl_extendMatches]
  simp [List.any_eq_true]

theorem nodup_get_all_image_files (root : String) (files : List String) :
    (get_all_image_files root files).Nodup :=
  nodup_sortBy (List.nodup_dedup _)

theorem sorted_get_all_image_files (root : String) (files : List String) :
    (get_all_image_files root files).Pairwise (fun a b => strLe a b = true) :=
  pairwise_sortBy strLe_trans strLe_total _

/-! ## Claim C3: the resume filter -/

/-- C3: for every discovered file set `F` and every loaded progress log,
the resume filter computes `remaining = F` minus the set of absolute paths
appearing in the loaded records, and no path belongs to both the remaining
set and the already-processed set. -/
theorem c3_resume_filter (F : List String) (rs : List UploadRecord) :
    (∀ p, p ∈ remaining_files F rs ↔ p ∈ F ∧ p ∉ processed_files rs) ∧
    (∀ p, p ∈ remaining_files F rs → p ∉ processed_files rs) :=
  ⟨fun _ => mem_remaining_files, fun _ hp => (mem_remaining_files.mp hp).2⟩

/-- Witness for C3 at a concrete file set and an empty progress log. -/
theorem c3_resume_filter_witness : "/w/a.png" ∉ processed_files [] :=
  (c3_resume_filter ["/w/a.png"] []).2 "/w/a.png" (by decide)

/-! ## Claim C5: file discovery -/

/-- Spec wording of the discovery filter, for the refutation: a path is an
image when its lowercased text ends with one of the allow-listed
extensions, i.e. the extension matches case-insensitively. -/
def specCaseInsensitiveMatch (p : String) : Bool :=
  image_extensions.any (fun e => (e.data.drop 1).isSuffixOf (toLowerStr p).data)

/-- C5 refutation: `get_all_image_files` does not return exactly the files
whose extension matches the allow-list case-insensitively, because
`glob.glob` only sees the all-lowercase and the all-uppercase spelling of
each pattern (and in addition never matches hidden names): the file
`/w/a.Jpg` matches `.jpg` case-insensitively but is not discovered. -/
theorem c5_counterexample :
    ¬ (∀ (root : String) (files : List String) (p : String),
        p ∈ get_all_image_files root files ↔
          p ∈ files ∧ specCaseInsensitiveMatch p = true) := by
  intro h
  have h2 := (h "/w" ["/w/a.Jpg"] "/w/a.Jpg").mpr ⟨by decide, by decide⟩
  exact absurd h2 (by decide)

/-- C5 as amended: `get_all_image_files` returns a deduplicated sequence,
sorted lexicographically by code points, of exactly those files under the
root all of whose path components below the root are non-hidden (`glob`'s
wildcards never match a leading-dot name nor descend into a hidden
directory) and whose extension matches an allow-listed pattern spelled
either all-lowercase or all-uppercase; in particular any path with a
hidden component below the root is never discovered; an empty result is
not an error and makes the run return immediately with nothing
processed. -/
theorem c5_discovery (files : List String) (root : String)
    (u : String → Option String) (intAt : Option Nat)
    (loaded : List UploadRecord) :
    (∀ p, p ∈ get_all_image_files root files ↔
        p ∈ files ∧ (image_extensions.any
          (fun e => globMatches root e p ||
            globMatches root (toUpperStr e) p)) = true) ∧
    (∀ p, (relParts root p).any (fun comp => isHiddenComponent comp) = true →
      p ∉ get_all_image_files root files) ∧
    (get_all_image_files root files).Nodup ∧
    (get_all_image_files root files).Pairwise (fun a b => strLe a b = true) ∧
    (get_all_image_files root files = [] →
      main_run root u intAt loaded files = none) := by
  refine ⟨fun _ => mem_get_all_image_files, ?_,
    nodup_get_all_image_files root files,
    sorted_get_all_image_files root files, fun h => by simp [main_run, h]⟩
  intro p hhid hmem
  rcases List.any_eq_true.mp hhid with ⟨comp, hcomp, hc⟩
  rcases List.any_eq_true.mp (mem_get_all_image_files.mp hmem).2
    with ⟨e, _, hm⟩
  have hall : (relParts root p).all (fun c => !isHiddenComponent c) = true := by
    rcases Bool.or_eq_true_iff.mp hm with hm1 | hm1 <;>
      exact ((Bool.and_eq_true _ _).mp
        ((Bool.and_eq_true _ _).mp hm1).1).2
  have := List.all_eq_true.mp hall comp hcomp
  simp [hc] at this

/-- Witness for C5: a directory holding only a text file and a hidden
image makes the run return immediately. -/
theorem c5_discovery_witness :
    main_run "/w" (fun _ => none) none [] ["/w/notes.txt", "/w/.a.jpg"] = none :=
  (c5_discovery ["/w/notes.txt", "/w/.a.jpg"] "/w" (fun _ => none) none
    []).2.2.2.2 (by decide)

/-! ## Claim C2: the resumed-run invariant -/

/-- C2 refutation: the union of the loaded records' paths and the computed
remaining set does not equal the discovered set for every loaded progress
log: a log carrying a path outside the discovered set (here `/x/b.png`,
e.g. a file deleted between runs) stays in the union. -/
theorem c2_counterexample :
    ¬ (∀ (root : String) (files : List String) (rs : List UploadRecord)
        (p : String),
        (p ∈ processed_files rs ∨
            p ∈ remaining_files (get_all_image_files root files) rs)
          ↔ p ∈ get_all_image_files root files) := by
  intro h
  have h2 := (h "/w" ["/w/a.png"]
    [{ original_path := "b.png", absolute_path := "/x/b.png",
       filename := "b.png", imgur_url := none }] "/x/b.png").mp
    (Or.inl (by decide))
  exact absurd h2 (by decide)

/-- C2 as amended: provided every loaded record's absolute path is among
the discovered files and the loaded records carry no duplicate path, the
loaded paths and the computed remaining set partition the discovered set
(their union is the discovered set and they are disjoint), and across the
resumed run no two records share an absolute path. -/
theorem c2_resume_invariant (files : List String) (rs : List UploadRecord)
    (root : String) (u : String → Option String)
    (hsub : ∀ r ∈ rs, r.absolute_path ∈ get_all_image_files root files)
    (hnd : (processed_files rs).Nodup) :
    (∀ p, (p ∈ processed_files rs ∨
        p ∈ remaining_files (get_all_image_files root files) rs)
      ↔ p ∈ get_all_image_files root files) ∧
    (∀ p, ¬ (p ∈ processed_files rs ∧
        p ∈ remaining_files (get_all_image_files root files) rs)) ∧
    (processed_files
      (runMain root u none rs
        (get_all_image_files root files)).records).Nodup := by
  refine ⟨?_, ?_, ?_⟩
  · intro p
    constructor
    · rintro (hp | hp)
      · rcases List.mem_map.mp hp with ⟨r, hr, rfl⟩
        exact hsub r hr
      · exact (mem_remaining_files.mp hp).1
    · intro hp
      by_cases hproc : p ∈ processed_files rs
      · exact Or.inl hproc
      · exact Or.inr (mem_remaining_files.mpr ⟨hp, hproc⟩)
  · rintro p ⟨h1, h2⟩
    exact (mem_remaining_files.mp h2).2 h1
  · rw [runMain, uploadLoop_none_eq]
    unfold processed_files
    simp only [List.map_append, List.map_map]
    rw [show List.map ((fun r => r.absolute_path) ∘ mkRecord root u)
        (remaining_files (get_all_image_files root files) rs)
        = remaining_files (get_all_image_files root files) rs from
      List.map_congr_left (fun p _ => rfl) |>.trans (List.map_id _)]
    refine List.Nodup.append hnd
      (List.Nodup.filter _ (nodup_get_all_image_files root files)) ?_
    exact fun p hp hp2 => (mem_remaining_files.mp hp2).2 hp

/-- Witness for C2 at a one-file directory whose single file was already
processed by the loaded log. -/
theorem c2_resume_invariant_witness :
    (processed_files
      (runMain "/w" (fun _ => some "https://i.imgur.com/a.png") none
        [{ original_path := "a.png", absolute_path := "/w/a.png",
           filename := "a.png", imgur_url := some "https://i.imgur.com/a.png" }]
        (get_all_image_files "/w" ["/w/a.png"])).records).Nodup :=
  (c2_resume_invariant ["/w/a.png"]
    [{ original_path := "a.png", absolute_path := "/w/a.png",
       filename := "a.png", imgur_url := some "https://i.imgur.com/a.png" }]
    "/w" (fun _ => some "https://i.imgur.com/a.png")
    (by decide) (by decide)).2.2

/-! ## Upload retry lemmas -/

theorem retryable_cases {o : AttemptOutcome} (h : retryableOutcome o = true) :
    o = .rateLimited ∨ (∃ s, o = .httpError s) ∨ o = .connError ∨
      o = .timeoutError := by
  cases o <;> simp_all [retryableOutcome]

theorem uploadAux_succ (att : Nat → AttemptOutcome)
    (enc : Nat → Nat → List Nat → List Nat) (f : ImageFile) (r k : Nat) :
    uploadAux att enc f r (k + 1) =
      if IMGUR_SIZE_LIMIT < (compress_image_if_needed enc f).2 then none
      else match att r with
        | .httpOk true link => some link
        | .httpOk false _ => none
        | .rateLimited => uploadAux att enc f (r + 1) k
        | .httpError _ =>
          if r < MAX_RETRIES - 1 then uploadAux att enc f (r + 1) k else none
        | .connError =>
          if r < MAX_RETRIES - 1 then uploadAux att enc f (r + 1) k else none
        | .timeoutError =>
          if r < MAX_RETRIES - 1 then uploadAux att enc f (r + 1) k else none
        | .otherError => none := rfl

theorem uploadAttemptsAux_succ (att : Nat → AttemptOutcome)
    (enc : Nat → Nat → List Nat → List Nat) (f : ImageFile) (r k : Nat) :
    uploadAttemptsAux att enc f r (k + 1) =
      if IMGUR_SIZE_LIMIT < (compress_image_if_needed enc f).2 then 0
      else match att r with
        | .httpOk _ _ => 1
        | .rateLimited => 1 + uploadAttemptsAux att enc f (r + 1) k
        | .httpError _ =>
          1 + if r < MAX_RETRIES - 1 then uploadAttemptsAux att enc f (r + 1) k
            else 0
        | .connError =>
          1 + if r < MAX_RETRIES - 1 then uploadAttemptsAux att enc f (r + 1) k
            else 0
        | .timeoutError =>
          1 + if r < MAX_RETRIES - 1 then uploadAttemptsAux att enc f (r + 1) k
            else 0
        | .otherError => 1 := rfl

theorem uploadAux_retry_step (att : Nat → AttemptOutcome)
    (enc : Nat → Nat → List Nat → List Nat) (f : ImageFile) (r k : Nat)
    (h : retryableOutcome (att r) = true) (hr : r < MAX_RETRIES - 1)
    (hsz : ¬ IMGUR_SIZE_LIMIT < (compress_image_if_needed enc f).2) :
    uploadAux att enc f r (k + 1) = uploadAux att enc f (r + 1) k ∧
    uploadAttemptsAux att enc f r (k + 1)
      = 1 + uploadAttemptsAux att enc f (r + 1) k := by
  rw [uploadAux_succ, uploadAttemptsAux_succ]
  rcases retryable_cases h with h1 | ⟨s, h1⟩ | h1 | h1 <;> simp [h1, hr, hsz]

theorem uploadAux_last_step (att : Nat → AttemptOutcome)
    (enc : Nat → Nat → List Nat → List Nat) (f : ImageFile) (r : Nat)
    (h : retryableOutcome (att r) = true) (hr : ¬ r < MAX_RETRIES - 1)
    (hsz : ¬ IMGUR_SIZE_LIMIT < (compress_image_if_needed enc f).2) :
    uploadAux att enc f r 1 = none ∧ uploadAttemptsAux att enc f r 1 = 1 := by
  rw [uploadAux_succ, uploadAttemptsAux_succ]
  rcases retryable_cases h with h1 | ⟨s, h1⟩ | h1 | h1 <;>
    simp [h1, hr, hsz, uploadAux, uploadAttemptsAux]

/-! ## Claim C1: the retry bound -/

/-- C1: for a file whose every attempt fails with a retryable error (rate
limit, HTTP error, connection error, timeout) and whose payload passes the
size check, `upload_image_to_imgur` makes exactly `MAX_RETRIES` attempts
and returns `none`, the file's record gets a null URL, and the run still
appends one record per remaining file instead of aborting. -/
theorem c1_retry_bound (att : Nat → AttemptOutcome)
    (enc : Nat → Nat → List Nat → List Nat) (f : ImageFile) (root : String)
    (u : String → Option String) (loaded : List UploadRecord)
    (F : List String)
    (hatt : ∀ r, retryableOutcome (att r) = true)
    (hsz : (compress_image_if_needed enc f).2 ≤ IMGUR_SIZE_LIMIT) :
    uploadAttempts att enc f 0 = MAX_RETRIES ∧
    upload_image_to_imgur att enc f 0 = none ∧
    (∀ q, (mkRecord root (fun _ => upload_image_to_imgur att enc f 0) q).imgur_url
      = none) ∧
    (runMain root u none loaded F).records
      = loaded ++ (remaining_files F loaded).map (mkRecord root u) := by
  have hsz' : ¬ IMGUR_SIZE_LIMIT < (compress_image_if_needed enc f).2 :=
    not_lt.2 hsz
  have s0 := uploadAux_retry_step att enc f 0 2 (hatt 0) (by decide) hsz'
  have s1 := uploadAux_retry_step att enc f 1 1 (hatt 1) (by decide) hsz'
  have s2 := uploadAux_last_step att enc f 2 (hatt 2) (by decide) hsz'
  have hnone : upload_image_to_imgur att enc f 0 = none := by
    show uploadAux att enc f 0 (2 + 1) = none
    rw [s0.1, s1.1, s2.1]
  refine ⟨?_, hnone, fun q => by simp [mkRecord, hnone], ?_⟩
  · show uploadAttemptsAux att enc f 0 (2 + 1) = MAX_RETRIES
    rw [s0.2, s1.2, s2.2]
    rfl
  · simp [runMain, uploadLoop_none_eq]

/-- Witness for C1: a file that is rate-limited on every attempt costs
exactly `MAX_RETRIES` attempts. -/
theorem c1_retry_bound_witness :
    uploadAttempts (fun _ => AttemptOutcome.rateLimited) (fun _ _ c => c)
      ⟨[1], 1, 1, false⟩ 0 = MAX_RETRIES :=
  (c1_retry_bound (fun _ => AttemptOutcome.rateLimited) (fun _ _ c => c)
    ⟨[1], 1, 1, false⟩ "/w" (fun _ => none) [] []
    (fun _ => rfl) (by decide)).1

/-! ## Claim C10: termination of the retry recursion -/

theorem uploadAttemptsAux_le (att : Nat → AttemptOutcome)
    (enc : Nat → Nat → List Nat → List Nat) (f : ImageFile) :
    ∀ (k r : Nat), uploadAttemptsAux att enc f r k ≤ k
  | 0, _ => Nat.le_refl 0
  | k + 1, r => by
    rw [uploadAttemptsAux_succ]
    by_cases hsz : IMGUR_SIZE_LIMIT < (compress_image_if_needed enc f).2
    · simp [hsz]
    · have ih := uploadAttemptsAux_le att enc f k (r + 1)
      cases h : att r with
      | httpOk b l => simp [hsz, h]
      | rateLimited =>
        simp only [hsz, if_neg, h]
        exact le_of_le_of_eq (Nat.add_le_add_left ih 1) (Nat.add_comm 1 k)
      | httpError s =>
        simp only [hsz, if_neg, h]
        by_cases hr : r < MAX_RETRIES - 1 <;> simp only [hr, if_pos, if_neg]
        · exact le_of_le_of_eq (Nat.add_le_add_left ih 1) (Nat.add_comm 1 k)
        · exact le_of_le_of_eq (Nat.add_le_add_left (Nat.zero_le k) 1)
            (Nat.add_comm 1 k)
      | connError =>
        simp only [hsz, if_neg, h]
        by_cases hr : r < MAX_RETRIES - 1 <;> simp only [hr, if_pos, if_neg]
        · exact le_of_le_of_eq (Nat.add_le_add_left ih 1) (Nat.add_comm 1 k)
        · exact le_of_le_of_eq (Nat.add_le_add_left (Nat.zero_le k) 1)
            (Nat.add_comm 1 k)
      | timeoutError =>
        simp only [hsz, if_neg, h]
        by_cases hr : r < MAX_RETRIES - 1 <;> simp only [hr, if_pos, if_neg]
        · exact le_of_le_of_eq (Nat.add_le_add_left ih 1) (Nat.add_comm 1 k)
        · exact le_of_le_of_eq (Nat.add_le_add_left (Nat.zero_le k) 1)
            (Nat.add_comm 1 k)
      | otherError => simp [hsz, h]

/-- C10: `upload_image_to_imgur` terminates for every image and starting
retry count: the number of attempts (and hence of recursive
self-invocations, each passing `retry_count + 1`) is bounded by
`MAX_RETRIES - retry_count`, hence by `MAX_RETRIES`, and once
`retry_count` reaches `MAX_RETRIES` the function returns `none` without
recursing. -/
theorem c10_termination (att : Nat → AttemptOutcome)
    (enc : Nat → Nat → List Nat → List Nat) (f : ImageFile) (r : Nat) :
    uploadAttempts att enc f r ≤ MAX_RETRIES - r ∧
    uploadAttempts att enc f r ≤ MAX_RETRIES ∧
    (MAX_RETRIES ≤ r → upload_image_to_imgur att enc f r = none) := by
  refine ⟨uploadAttemptsAux_le att enc f _ r,
    le_trans (uploadAttemptsAux_le att enc f _ r) (Nat.sub_le _ _), ?_⟩
  intro hr
  unfold upload_image_to_imgur
  rw [Nat.sub_eq_zero_of_le hr]
  rfl

/-- Witness for C10: called at `retry_count = 5 ≥ MAX_RETRIES` the
function immediately returns `none`. -/
theorem c10_termination_witness :
    upload_image_to_imgur (fun _ => AttemptOutcome.rateLimited)
      (fun _ _ c => c) ⟨[1], 1, 1, false⟩ 5 = none :=
  (c10_termination (fun _ => AttemptOutcome.rateLimited) (fun _ _ c => c)
    ⟨[1], 1, 1, false⟩ 5).2.2 (by decide)

/-! ## Claim C7: compression is a no-op within thresholds -/

/-- C7: for every image whose byte size is at most `MAX_FILE_SIZE` and
whose larger pixel dimension is at most `MAX_DIMENSION`,
`compress_image_if_needed` returns exactly the original bytes and their
length, for every encoder. -/
theorem c7_compress_noop (enc : Nat → Nat → List Nat → List Nat)
    (f : ImageFile) (h1 : f.content.length ≤ MAX_FILE_SIZE)
    (h2 : max f.width f.height ≤ MAX_DIMENSION) :
    compress_image_if_needed enc f = (f.content, f.content.length) := by
  unfold compress_image_if_needed
  by_cases hp : f.pilError
  · simp [hp]
  · have e1 : ¬ MAX_FILE_SIZE < f.content.length := not_lt.2 h1
    have e2 : ¬ MAX_DIMENSION < max f.width f.height := not_lt.2 h2
    simp [hp, e1, e2]

/-- Witness for C7 on a small 640×480 file. -/
theorem c7_compress_noop_witness :
    compress_image_if_needed (fun _ _ c => c) ⟨[7, 8, 9], 640, 480, false⟩
      = ([7, 8, 9], 3) :=
  c7_compress_noop (fun _ _ c => c) ⟨[7, 8, 9], 640, 480, false⟩
    (by decide) (by decide)

/-! ## Claim C8: compression output bounds -/

/-- C8: for every image exceeding the size or dimension threshold (and
processable by the imaging library), the returned bytes are the encoder's
output at target dimensions whose maximum is at most `MAX_DIMENSION`, the
returned length is re-measured from those bytes, and whenever that length
still exceeds the 20 MB upload limit the upload returns `none` with zero
POST attempts. -/
theorem c8_compress_bound (enc : Nat → Nat → List Nat → List Nat)
    (att : Nat → AttemptOutcome) (f : ImageFile) (r : Nat)
    (hp : f.pilError = false)
    (hex : MAX_FILE_SIZE < f.content.length ∨
      MAX_DIMENSION < max f.width f.height) :
    max (compressTargetDims f).1 (compressTargetDims f).2 ≤ MAX_DIMENSION ∧
    (compress_image_if_needed enc f).1
      = enc (compressTargetDims f).1 (compressTargetDims f).2 f.content ∧
    (compress_image_if_needed enc f).2
      = (compress_image_if_needed enc f).1.length ∧
    (IMGUR_SIZE_LIMIT < (compress_image_if_needed enc f).2 →
      upload_image_to_imgur att enc f r = none ∧
      uploadAttempts att enc f r = 0) := by
  have hcond : (decide (MAX_FILE_SIZE < f.content.length) ||
      decide (MAX_DIMENSION < max f.width f.height)) = true := by
    rcases hex with h | h <;> simp [h]
  have hcomp : compress_image_if_needed enc f
      = (enc (compressTargetDims f).1 (compressTargetDims f).2 f.content,
         (enc (compressTargetDims f).1 (compressTargetDims f).2
           f.content).length) := by
    unfold compress_image_if_needed
    rw [if_neg (by simp [hp])]
    simp only [hcond, if_true]
  refine ⟨?_, by rw [hcomp], by rw [hcomp], ?_⟩
  · unfold compressTargetDims
    by_cases hd : MAX_DIMENSION < max f.width f.height
    · have hpos : 0 < max f.width f.height :=
        lt_trans (by simp [MAX_DIMENSION]) hd
      simp only [hd, if_pos]
      refine max_le ?_ ?_
      · calc f.width * MAX_DIMENSION / max f.width f.height
            ≤ max f.width f.height * MAX_DIMENSION / max f.width f.height :=
              Nat.div_le_div_right
                (Nat.mul_le_mul_right _ (le_max_left _ _))
          _ = MAX_DIMENSION := Nat.mul_div_cancel_left _ hpos
      · calc f.height * MAX_DIMENSION / max f.width f.height
            ≤ max f.width f.height * MAX_DIMENSION / max f.width f.height :=
              Nat.div_le_div_right
                (Nat.mul_le_mul_right _ (le_max_right _ _))
          _ = MAX_DIMENSION := Nat.mul_div_cancel_left _ hpos
    · simp only [hd, if_neg]
      exact le_of_not_lt hd
  · intro hbig
    unfold upload_image_to_imgur uploadAttempts
    cases hk : MAX_RETRIES - r with
    | zero => exact ⟨rfl, rfl⟩
    | succ k =>
      rw [uploadAux_succ, uploadAttemptsAux_succ]
      simp [hbig]

/-- Witness for C8 on a 4096×1024 file: the resize target is within the
dimension bound. -/
theorem c8_compress_bound_witness :
    max (compressTargetDims ⟨[1], 4096, 1024, false⟩).1
      (compressTargetDims ⟨[1], 4096, 1024, false⟩).2 ≤ MAX_DIMENSION :=
  (c8_compress_bound (fun _ _ c => c) (fun _ => AttemptOutcome.rateLimited)
    ⟨[1], 4096, 1024, false⟩ 0 rfl (by decide)).1

/-! ## Claim C6: unexpected exceptions -/

/-- C6 refutation: an unexpected exception during compression does not make
the file a failed record: the script falls back to the original bytes and
still uploads them, so a file on which the imaging library raises can end
with a non-null URL. -/
theorem c6_counterexample :
    ¬ (∀ (enc : Nat → Nat → List Nat → List Nat)
        (att : Nat → AttemptOutcome) (f : ImageFile),
        f.pilError = true → upload_image_to_imgur att enc f 0 = none) := by
  intro h
  exact absurd
    (h (fun _ _ c => c) (fun _ => .httpOk true "https://i.imgur.com/x.png")
      ⟨[1], 1, 1, true⟩ rfl)
    (by decide)

/-- C6 as amended: unexpected exceptions never propagate to abort the run
(every remaining file still gets a record); an unexpected exception during
an upload attempt yields `none` for that file; an unexpected exception
during compression is caught with a fallback to the original bytes, after
which the upload still proceeds. -/
theorem c6_exception_handling (enc : Nat → Nat → List Nat → List Nat)
    (att : Nat → AttemptOutcome) (f : ImageFile) (root : String)
    (u : String → Option String) (loaded : List UploadRecord)
    (F : List String)
    (hf : f.pilError = true)
    (hraise : att 0 = .otherError)
    (hsz : (compress_image_if_needed enc f).2 ≤ IMGUR_SIZE_LIMIT) :
    compress_image_if_needed enc f = (f.content, f.content.length) ∧
    upload_image_to_imgur att enc f 0 = none ∧
    (runMain root u none loaded F).records
      = loaded ++ (remaining_files F loaded).map (mkRecord root u) := by
  refine ⟨by simp [compress_image_if_needed, hf], ?_,
    by simp [runMain, uploadLoop_none_eq]⟩
  show uploadAux att enc f 0 (2 + 1) = none
  rw [uploadAux_succ]
  simp [hraise, not_lt.2 hsz]

/-- Witness for C6: an unreadable image whose single attempt raises yields
a null result. -/
theorem c6_exception_handling_witness :
    upload_image_to_imgur (fun _ => AttemptOutcome.otherError)
      (fun _ _ c => c) ⟨[1], 1, 1, true⟩ 0 = none :=
  (c6_exception_handling (fun _ _ c => c) (fun _ => AttemptOutcome.otherError)
    ⟨[1], 1, 1, true⟩ "/w" (fun _ => none) [] [] rfl rfl (by decide)).2.1

/-! ## Claim C4: report generation -/

/-- C4 refutation: `generate_markdown_file` is not a pure function of the
record sequence alone: the report embeds `datetime.now()`, so two
invocations on the same records at different times produce different
contents. -/
theorem c4_counterexample :
    ¬ (∀ (t1 t2 : String) (rs : List UploadRecord),
        generate_markdown_content t1 rs = generate_markdown_content t2 rs) := by
  intro h
  exact absurd (h "2025-01-01 00:00:00" "2025-01-02 00:00:00" []) (by decide)

/-- C4 as amended: the report is a pure function of the record sequence and
the generation timestamp, with one section per source directory (distinct
keys, iterated in sorted order) and the entries of each section sorted by
filename. -/
theorem c4_report (t t' : String) (rs rs' : List UploadRecord)
    (h1 : t = t') (h2 : rs = rs') :
    generate_markdown_content t rs = generate_markdown_content t' rs' ∧
    (sectionKeys rs).Nodup ∧
    (sectionKeys rs).Pairwise (fun a b => strLe a b = true) ∧
    (∀ r ∈ rs, recordDir r ∈ sectionKeys rs) ∧
    (∀ d, (entriesFor d rs).Pairwise
      (fun a b => strLe a.filename b.filename = true)) := by
  subst h1
  subst h2
  refine ⟨rfl, nodup_sortBy (List.nodup_dedup _),
    pairwise_sortBy strLe_trans strLe_total _, ?_, ?_⟩
  · intro r hr
    unfold sectionKeys
    rw [mem_sortBy, List.mem_dedup]
    exact List.mem_map_of_mem _ hr
  · intro d
    exact pairwise_sortBy
      (fun a b c hab hbc => strLe_trans a.filename b.filename c.filename hab hbc)
      (fun a b => strLe_total a.filename b.filename) _

/-- Witness for C4: equal timestamp and records give equal report text. -/
theorem c4_report_witness :
    generate_markdown_content "2025-01-01 00:00:00"
        [{ original_path := "a.png", absolute_path := "/w/a.png",
           filename := "a.png", imgur_url := none }]
      = generate_markdown_content "2025-01-01 00:00:00"
        [{ original_path := "a.png", absolute_path := "/w/a.png",
           filename := "a.png", imgur_url := none }] :=
  (c4_report "2025-01-01 00:00:00" "2025-01-01 00:00:00"
    [{ original_path := "a.png", absolute_path := "/w/a.png",
       filename := "a.png", imgur_url := none }]
    [{ original_path := "a.png", absolute_path := "/w/a.png",
       filename := "a.png", imgur_url := none }] rfl rfl).1

/-! ## Claim C9: progress persistence -/

/-- C9: in an uninterrupted run the full record list is snapshotted to the
progress file exactly after every 10 processed files of the current run
and the final report is produced; when the cancellation signal arrives at
iteration `k`, the records of the first `k` files are kept, one final
snapshot of the full record list is flushed after the periodic ones, and
the run exits without producing the final report. -/
theorem c9_progress_persistence (root : String) (u : String → Option String)
    (loaded : List UploadRecord) (rem : List String) (k : Nat)
    (hk : k < rem.length) :
    (uploadLoop root u none 0 loaded [] rem).saves
      = ((List.range rem.length).filter (fun j => (j + 1) % 10 = 0)).map
        (fun j => loaded ++ ((rem.take (j + 1)).map (mkRecord root u))) ∧
    (uploadLoop root u none 0 loaded [] rem).reportWritten = true ∧
    (uploadLoop root u (some k) 0 loaded [] rem).saves
      = (((List.range k).filter (fun j => (j + 1) % 10 = 0)).map
          (fun j => loaded ++ ((rem.take (j + 1)).map (mkRecord root u))))
        ++ [loaded ++ ((rem.take k).map (mkRecord root u))] ∧
    (uploadLoop root u (some k) 0 loaded [] rem).records
      = loaded ++ ((rem.take k).map (mkRecord root u)) ∧
    (uploadLoop root u (some k) 0 loaded [] rem).reportWritten = false := by
  have hnone := uploadLoop_none_eq root u rem 0 loaded []
  simp only [Nat.zero_add] at hnone
  have hint := uploadLoop_interrupt_eq root u rem k 0 loaded [] hk
  simp only [Nat.zero_add] at hint
  rw [hnone, hint]
  refine ⟨by simp, rfl, by simp, rfl, rfl⟩

/-- Witness for C9: interrupting before the first file leaves an empty
record flush and no report. -/
theorem c9_progress_persistence_witness :
    (uploadLoop "/w" (fun _ => none) (some 0) 0 [] [] ["/w/a.png"]).reportWritten
      = false :=
  (c9_progress_persistence "/w" (fun _ => none) [] ["/w/a.png"] 0
    (by decide)).2.2.2.2

end ImgurUpload
